import Mathlib

/-!
Verification of the hyperjson codec core against its specification.

Shallow embedding of the Rust sources:
  * `src/serialize/state.rs`        — `SerializerState` packed-word counters
  * `src/interpreter_state.rs`      — `ParseBuffer` buffer pool
  * `src/deserialize/backend/yyjson.rs` — tree materializer (`deserialize`,
    `populate_yy_array`, `populate_yy_object`)
  * `src/deserialize/cache.rs`      — direct-mapped `KeyCache`
  * `src/deserialize/pyobject.rs`   — `get_unicode_key` open hash-map key cache
  * `src/serialize/obtype.rs`       — `pyobject_to_obtype` type classifier

Machine integers are modelled as `Nat` with explicit `% 2^w` where the Rust
code can overflow; external collaborators (the yyjson parser, the allocator,
the xxh3 hash) are oracle parameters.
-/

namespace HyperJson

/-! ### `src/serialize/state.rs` — SerializerState

The Rust struct packs `opts` (low 16 bits), a default-call counter
(bits 16..24) and a recursion counter (bits 24..32) into one `u32`. -/

def RECURSION_SHIFT : Nat := 24

def RECURSION_MASK : Nat := 255 <<< RECURSION_SHIFT

def DEFAULT_SHIFT : Nat := 16

def DEFAULT_MASK : Nat := 255 <<< DEFAULT_SHIFT

/-- `2^32`; arithmetic in the source is on `u32`. -/
def U32_SIZE : Nat := 4294967296

/-- Rust `!RECURSION_MASK` on `u32` (bitwise complement within 32 bits). -/
def NOT_RECURSION_MASK : Nat := (U32_SIZE - 1) ^^^ RECURSION_MASK

/-- Rust `!DEFAULT_MASK` on `u32` (bitwise complement within 32 bits). -/
def NOT_DEFAULT_MASK : Nat := (U32_SIZE - 1) ^^^ DEFAULT_MASK

structure SerializerState where
  state : Nat
deriving DecidableEq

/-- `SerializerState::new(opts)`; the source carries an interpreter-state
pointer alongside which has no bearing on the packed word. -/
def SerializerState.new (opts : Nat) : SerializerState := ⟨opts⟩

def SerializerState.opts (s : SerializerState) : Nat := s.state

/-- `SerializerState::recursion_limit`. -/
def SerializerState.recursion_limit (s : SerializerState) : Bool :=
  s.state &&& RECURSION_MASK == RECURSION_MASK

/-- `SerializerState::default_calls_limit`. -/
def SerializerState.default_calls_limit (s : SerializerState) : Bool :=
  s.state &&& DEFAULT_MASK == DEFAULT_MASK

/-- `SerializerState::copy_for_recursive_call`.  The shift back up is `u32`
arithmetic, hence the `% U32_SIZE`. -/
def SerializerState.copy_for_recursive_call (s : SerializerState) : SerializerState :=
  let opt := s.state &&& NOT_RECURSION_MASK
  let recursion :=
    ((((s.state &&& RECURSION_MASK) >>> RECURSION_SHIFT) + 1) <<< RECURSION_SHIFT) % U32_SIZE
  ⟨opt ||| recursion⟩

/-- `SerializerState::copy_for_default_call`. -/
def SerializerState.copy_for_default_call (s : SerializerState) : SerializerState :=
  let opt := s.state &&& NOT_DEFAULT_MASK
  let default_calls :=
    ((((s.state &&& DEFAULT_MASK) >>> DEFAULT_SHIFT) + 1) <<< DEFAULT_SHIFT) % U32_SIZE
  ⟨opt ||| default_calls⟩

/-- The recursion counter field (bits 24..32) of the packed word. -/
def SerializerState.recursionCounter (s : SerializerState) : Nat :=
  (s.state &&& RECURSION_MASK) >>> RECURSION_SHIFT

/-- The default-call counter field (bits 16..24) of the packed word. -/
def SerializerState.defaultCounter (s : SerializerState) : Nat :=
  (s.state &&& DEFAULT_MASK) >>> DEFAULT_SHIFT

/-- The option-flag field (bits 0..16) of the packed word. -/
def SerializerState.optBits (s : SerializerState) : Nat :=
  s.state &&& 65535

/-! ### `src/interpreter_state.rs` — ParseBuffer (the buffer pool)

The pointer is modelled as `Option Nat` (`none` = null) and the allocator
(`PyMem_Malloc`) as an oracle `Nat → Option Nat` mapping a size to either a
fresh pointer or an allocation failure. -/

structure ParseBuffer where
  ptr : Option Nat
  capacity : Nat
deriving DecidableEq

/-- `ParseBuffer::new()`. -/
def ParseBuffer.new : ParseBuffer := ⟨none, 0⟩

/-- `ParseBuffer::ensure_capacity`: reuse the allocation when large enough,
otherwise free it and allocate `max(next_power_of_two(required), 4096)`;
on allocation failure the stored pointer is null and the capacity 0. -/
def ParseBuffer.ensure_capacity (b : ParseBuffer) (alloc : Nat → Option Nat)
    (required : Nat) : (Option Nat × Nat) × ParseBuffer :=
  if b.capacity ≥ required then
    ((b.ptr, b.capacity), b)
  else
    let new_capacity := (Nat.nextPowerOfTwo required).max 4096
    let new_ptr := alloc new_capacity
    let new_cap := if new_ptr.isNone then 0 else new_capacity
    ((new_ptr, new_cap), ⟨new_ptr, new_cap⟩)

/-! ### `src/deserialize/backend/yyjson.rs` — document tree and materializer

The parsed yyjson document is modelled as an inductive tree: the `tag` byte
becomes the constructor, the in-word length of a container is exactly its
child count (yyjson invariant), and the sibling-stride navigation over the
flat buffer becomes structural recursion over the child list.  Float scalars
are carried as opaque bit payloads (no float arithmetic is performed). -/

mutual
inductive YYVal where
  | vstr (s : String)
  | vuint (n : Nat)
  | vint (n : Int)
  | vreal (bits : Nat)
  | vtrue
  | vfalse
  | vnull
  | varr (elems : YYList)
  | vobj (pairs : YYPairs)
inductive YYList where
  | nil
  | cons (hd : YYVal) (tl : YYList)
inductive YYPairs where
  | nil
  | cons (key : String) (hd : YYVal) (tl : YYPairs)
end

/-- Declared element count of an array node (`unsafe_yyjson_get_len`). -/
def YYList.length : YYList → Nat
  | .nil => 0
  | .cons _ tl => tl.length + 1

/-- Declared pair count of an object node (`unsafe_yyjson_get_len`). -/
def YYPairs.length : YYPairs → Nat
  | .nil => 0
  | .cons _ _ tl => tl.length + 1

/-! Native values produced by the materializer.  A `plist`/`pdict` records
the presized capacity passed to `PyList_New`/`_PyDict_NewPresized` at
allocation, which is never changed afterwards, alongside the items written
into the container. -/
mutual
inductive PyValue where
  | pstr (s : String)
  | pint (n : Int)
  | pfloat (bits : Nat)
  | pbool (b : Bool)
  | pnone
  | plist (capacity : Nat) (items : PyList)
  | pdict (capacity : Nat) (pairs : PyPairs)
inductive PyList where
  | nil
  | cons (hd : PyValue) (tl : PyList)
inductive PyPairs where
  | nil
  | cons (key : String) (hd : PyValue) (tl : PyPairs)
end

def PyList.length : PyList → Nat
  | .nil => 0
  | .cons _ tl => tl.length + 1

def PyPairs.length : PyPairs → Nat
  | .nil => 0
  | .cons _ _ tl => tl.length + 1

/-- `parse_primitive`: direct tag dispatch for scalars.  The source marks the
container tags unreachable (`unreachable_unchecked`) — both call sites only
reach it for non-containers; containers are mapped to an arbitrary value. -/
def parse_primitive : YYVal → PyValue
  | .vstr s => .pstr s
  | .vuint n => .pint (Int.ofNat n)
  | .vint n => .pint n
  | .vreal bits => .pfloat bits
  | .vtrue => .pbool true
  | .vfalse => .pbool false
  | .vnull => .pnone
  | .varr _ => .pnone
  | .vobj _ => .pnone

/-- `pydict_setitem`: CPython dict insertion — when an equal key is already
present its value is replaced in place (the stored key object and its
position are kept), otherwise the new pair is appended in insertion
order. -/
def PyPairs.set_item : PyPairs → String → PyValue → PyPairs
  | .nil, k, v => .cons k v .nil
  | .cons k2 v2 tl, k, v =>
    if k2 = k then .cons k2 v tl else .cons k2 v2 (tl.set_item k v)

mutual
/-- `populate_yy_array`: writes one native value per declared element. -/
def populate_yy_array : YYList → PyList
  | .nil => .nil
  | .cons v tl => .cons (materialize_elem v) (populate_yy_array tl)
/-- `populate_yy_object`: performs one `pydict_setitem` per declared pair,
in document order, on the dict being built (a duplicate key therefore
overwrites the earlier entry instead of adding one). -/
def populate_yy_object : YYPairs → PyPairs → PyPairs
  | .nil, dict => dict
  | .cons k v tl, dict =>
    populate_yy_object tl (dict.set_item k (materialize_elem v))
/-- Per-element dispatch inside the populate loops: a nested container is
allocated presized to its declared count and populated only when that count
is positive; a scalar goes through `parse_primitive`. -/
def materialize_elem : YYVal → PyValue
  | .varr es => .plist es.length (if 0 < es.length then populate_yy_array es else .nil)
  | .vobj ps => .pdict ps.length (if 0 < ps.length then populate_yy_object ps .nil else .nil)
  | .vstr s => parse_primitive (.vstr s)
  | .vuint n => parse_primitive (.vuint n)
  | .vint n => parse_primitive (.vint n)
  | .vreal bits => parse_primitive (.vreal bits)
  | .vtrue => parse_primitive .vtrue
  | .vfalse => parse_primitive .vfalse
  | .vnull => parse_primitive .vnull
end

/-- Root dispatch of `deserialize` (lines 120–139): scalar roots go through
`parse_primitive`; container roots are allocated presized to the declared
count and populated only when the count is positive. -/
def materialize_root (root : YYVal) : PyValue :=
  match root with
  | .varr es => .plist es.length (if 0 < es.length then populate_yy_array es else .nil)
  | .vobj ps => .pdict ps.length (if 0 < ps.length then populate_yy_object ps .nil else .nil)
  | v => parse_primitive v

/-- What the object population produces when no key repeats: one appended
pair per declared pair, in document order. -/
def populate_simple : YYPairs → PyPairs
  | .nil => .nil
  | .cons k v tl => .cons k (materialize_elem v) (populate_simple tl)

def YYPairs.keys : YYPairs → List String
  | .nil => []
  | .cons k _ tl => k :: tl.keys

def PyPairs.keys : PyPairs → List String
  | .nil => []
  | .cons k _ tl => k :: tl.keys

def PyPairs.append : PyPairs → PyPairs → PyPairs
  | .nil, q => q
  | .cons k v tl, q => .cons k v (tl.append q)

/-- The keys of one object node are pairwise distinct. -/
def keys_distinct : YYPairs → Bool
  | .nil => true
  | .cons k _ tl => decide (k ∉ tl.keys) && keys_distinct tl

/-! Duplicate-key freedom for a whole document: every object node, at every
nesting level, has pairwise-distinct keys. -/
mutual
def no_dup_keys : YYVal → Bool
  | .varr es => no_dup_keys_list es
  | .vobj ps => keys_distinct ps && no_dup_keys_pairs ps
  | _ => true
def no_dup_keys_list : YYList → Bool
  | .nil => true
  | .cons v tl => no_dup_keys v && no_dup_keys_list tl
def no_dup_keys_pairs : YYPairs → Bool
  | .nil => true
  | .cons _ v tl => no_dup_keys v && no_dup_keys_pairs tl
end

/-! Structural count agreement between a document node and a native value:
every container in the output must have its recorded capacity and its item
count equal to the declared count of the corresponding source container. -/
mutual
def counts_match : YYVal → PyValue → Bool
  | .varr es, .plist cap items =>
    (cap == es.length) && (items.length == es.length) && counts_match_list es items
  | .varr _, _ => false
  | .vobj ps, .pdict cap pairs =>
    (cap == ps.length) && (pairs.length == ps.length) && counts_match_pairs ps pairs
  | .vobj _, _ => false
  | _, _ => true
def counts_match_list : YYList → PyList → Bool
  | .nil, .nil => true
  | .cons v vt, .cons p pt => counts_match v p && counts_match_list vt pt
  | _, _ => false
def counts_match_pairs : YYPairs → PyPairs → Bool
  | .nil, .nil => true
  | .cons _ v vt, .cons _ p pt => counts_match v p && counts_match_pairs vt pt
  | _, _ => false
end

/-! Instrumentation for the populate call sites: the declared lengths of
every container for which `populate_yy_array`/`populate_yy_object` is
invoked during materialization, mirroring the `if len > 0` guards of the
source exactly. -/
mutual
def elem_populate_lens : YYVal → List Nat
  | .varr es => if 0 < es.length then es.length :: list_populate_lens es else []
  | .vobj ps => if 0 < ps.length then ps.length :: pairs_populate_lens ps else []
  | _ => []
def list_populate_lens : YYList → List Nat
  | .nil => []
  | .cons v tl => elem_populate_lens v ++ list_populate_lens tl
def pairs_populate_lens : YYPairs → List Nat
  | .nil => []
  | .cons _ v tl => elem_populate_lens v ++ pairs_populate_lens tl
end

def MINIMUM_BUFFER_CAPACITY : Nat := 4096

/-- `buffer_capacity_to_allocate`; the `& !(MINIMUM_BUFFER_CAPACITY - 1)` is
`usize` (64-bit) arithmetic, so the complement is taken within 64 bits. -/
def buffer_capacity_to_allocate (len : Nat) : Nat :=
  (len / 2 * 24 + 256 + (MINIMUM_BUFFER_CAPACITY - 1))
    &&& ((18446744073709551615 : Nat) ^^^ (MINIMUM_BUFFER_CAPACITY - 1))

/-- `DeserializeError::from_yyjson` payload: the parser's message text and
reported byte offset. -/
structure DeserializeError where
  message : String
  pos : Nat
deriving DecidableEq

/-- `deserialize` (`src/deserialize/backend/yyjson.rs`): grow the
per-interpreter parse buffer, fail recoverably when the allocation fails,
run the external parser (an oracle `parse`), surface its error with message
and position, otherwise materialize the tree.  On every path the buffer
stays owned by the pool (it is never freed here). -/
def deserialize (alloc : Nat → Option Nat)
    (parse : List Nat → Except (String × Nat) YYVal)
    (b : ParseBuffer) (data : List Nat) :
    Except DeserializeError PyValue × ParseBuffer :=
  match b.ensure_capacity alloc (buffer_capacity_to_allocate data.length) with
  | ((none, _), b2) =>
    (.error ⟨"Not enough memory to allocate buffer for parsing", 0⟩, b2)
  | ((some _, _), b2) =>
    match parse data with
    | .error (msg, pos) => (.error ⟨msg, pos⟩, b2)
    | .ok root => (.ok (materialize_root root), b2)

/-! ### `src/deserialize/cache.rs` — direct-mapped KeyCache

Interned key strings are modelled as handles (`PyStrH`) carrying a fresh
identity (`id`, standing for the object address) and the byte content; keys
are byte lists.  Reference-count bookkeeping is not modelled. -/

structure PyStrH where
  id : Nat
  content : List Nat
deriving DecidableEq

def FNV_OFFSET : Nat := 14695981039346656037

def FNV_PRIME : Nat := 1099511628211

def U64_SIZE : Nat := 18446744073709551616

/-- FNV-1a 64-bit hash over the key bytes. -/
def fnv1a_hash (data : List Nat) : Nat :=
  data.foldl (fun hash byte => (hash ^^^ byte) * FNV_PRIME % U64_SIZE) FNV_OFFSET

def CACHE_SIZE : Nat := 2048

def CACHE_MASK : Nat := CACHE_SIZE - 1

/-- A direct-mapped cache slot: the interned string (null when empty), its
FNV hash, and its length stored as `u8` (`bytes.len() as u8`). -/
structure CacheEntry where
  ptr : Option PyStrH
  hash : Nat
  len : Nat

def CacheEntry.empty : CacheEntry := ⟨none, 0, 0⟩

structure KeyCache where
  entries : Nat → CacheEntry

def KeyCache.new : KeyCache := ⟨fun _ => CacheEntry.empty⟩

/-- `KeyCache::get_or_insert`.  Returns the handle, the updated cache, the
updated fresh-id supply, and whether the fast-path hit was taken.  A hit
requires a non-empty slot whose stored hash and stored (`u8`-truncated)
length both match; otherwise a fresh string is interned and evicts the
slot's occupant. -/
def KeyCache.get_or_insert (c : KeyCache) (next_id : Nat) (key : List Nat) :
    PyStrH × KeyCache × Nat × Bool :=
  if (c.entries (fnv1a_hash key &&& CACHE_MASK)).ptr.isSome = true
      ∧ (c.entries (fnv1a_hash key &&& CACHE_MASK)).hash = fnv1a_hash key
      ∧ (c.entries (fnv1a_hash key &&& CACHE_MASK)).len = key.length % 256 then
    ((c.entries (fnv1a_hash key &&& CACHE_MASK)).ptr.getD ⟨0, []⟩, c, next_id, true)
  else
    (⟨next_id, key⟩,
      ⟨fun j => if j = fnv1a_hash key &&& CACHE_MASK
          then ⟨some ⟨next_id, key⟩, fnv1a_hash key, key.length % 256⟩
          else c.entries j⟩,
      next_id + 1, false)

/-! ### `src/deserialize/pyobject.rs` — `get_unicode_key` (open hash-map
variant)

The per-interpreter `key_map` is an open hash map keyed by the xxh3 hash of
the key (`key_map.entry(&hash).or_insert_with(...)`); the external xxh3
function is an oracle parameter.  Keys longer than 64 bytes bypass the cache
and are interned fresh (`PyStr::from_str_with_hash`). -/

structure KeyMap where
  table : List (Nat × PyStrH)
  next_id : Nat
deriving DecidableEq

def get_unicode_key (xxh3 : List Nat → Nat) (m : KeyMap) (key : List Nat) :
    PyStrH × KeyMap :=
  if key.length > 64 then
    (⟨m.next_id, key⟩, ⟨m.table, m.next_id + 1⟩)
  else
    match m.table.find? (fun e => e.1 == xxh3 key) with
    | some e => (e.2, m)
    | none =>
      (⟨m.next_id, key⟩,
        ⟨(xxh3 key, ⟨m.next_id, key⟩) :: m.table, m.next_id + 1⟩)

/-- A sequence of key lookups, returning the final cache state. -/
def run_lookups (xxh3 : List Nat → Nat) (m : KeyMap) (keys : List (List Nat)) :
    KeyMap :=
  keys.foldl (fun acc k => (get_unicode_key xxh3 acc k).2) m

/-! ### `src/serialize/obtype.rs` — type classifier

A value's runtime type is abstracted to the observations the classifier
makes of it: its exact identity against the known built-in/companion types,
its `tp_flags` subclass bits, the enum-metaclass subclass test, the
`__dataclass_fields__` attribute test, and the numpy scalar/array tests. -/

inductive TypeId where
  | tstr
  | tint
  | tbool
  | tnone
  | tfloat
  | tlist
  | tdict
  | tdatetime
  | tdate
  | ttime
  | ttuple
  | tuuid
  | tfragment
  | tother
deriving DecidableEq, Fintype

structure TypeInfo where
  id : TypeId
  unicode_subclass : Bool
  long_subclass : Bool
  list_subclass : Bool
  dict_subclass : Bool
  enum_subclass : Bool
  has_dataclass_fields : Bool
  numpy_scalar : Bool
  numpy_array : Bool
deriving DecidableEq

instance : Fintype TypeInfo :=
  Fintype.ofEquiv (TypeId × Bool × Bool × Bool × Bool × Bool × Bool × Bool × Bool)
    ⟨fun x => ⟨x.1, x.2.1, x.2.2.1, x.2.2.2.1, x.2.2.2.2.1, x.2.2.2.2.2.1,
        x.2.2.2.2.2.2.1, x.2.2.2.2.2.2.2.1, x.2.2.2.2.2.2.2.2⟩,
      fun t => (t.id, t.unicode_subclass, t.long_subclass, t.list_subclass,
        t.dict_subclass, t.enum_subclass, t.has_dataclass_fields,
        t.numpy_scalar, t.numpy_array),
      fun _ => rfl, fun _ => rfl⟩

/-- Modelled from the spec: the option bits from `crate::opt` (whose source
file is not part of the embedded sources) consulted by the classifier —
`PASSTHROUGH_DATETIME`, `PASSTHROUGH_SUBCLASS`, `PASSTHROUGH_DATACLASS`,
`SERIALIZE_NUMPY` — as independent booleans; `opt_disabled!`/`opt_enabled!`
become negation/identity. -/
structure Opt where
  passthrough_datetime : Bool
  passthrough_subclass : Bool
  passthrough_dataclass : Bool
  serialize_numpy : Bool
deriving DecidableEq

instance : Fintype Opt :=
  Fintype.ofEquiv (Bool × Bool × Bool × Bool)
    ⟨fun x => ⟨x.1, x.2.1, x.2.2.1, x.2.2.2⟩,
      fun o => (o.passthrough_datetime, o.passthrough_subclass,
        o.passthrough_dataclass, o.serialize_numpy),
      fun _ => rfl, fun _ => rfl⟩

inductive ObType where
  | Str
  | Int
  | Bool
  | None
  | Float
  | List
  | Dict
  | Datetime
  | Date
  | Time
  | Tuple
  | Uuid
  | Dataclass
  | NumpyScalar
  | NumpyArray
  | Enum
  | StrSubclass
  | Fragment
  | Unknown
deriving DecidableEq

/-- `pyobject_to_obtype_unlikely`: the slow path.  Sequential early-return
guards of the source are rendered as a flattened if-chain. -/
def pyobject_to_obtype_unlikely (t : TypeInfo) (opts : Opt) : ObType :=
  if t.id == .tuuid then .Uuid
  else if t.id == .ttuple then .Tuple
  else if t.id == .tfragment then .Fragment
  else if !opts.passthrough_datetime && t.id == .tdate then .Date
  else if !opts.passthrough_datetime && t.id == .ttime then .Time
  else if !opts.passthrough_subclass && t.unicode_subclass then .StrSubclass
  else if !opts.passthrough_subclass && t.long_subclass then .Int
  else if !opts.passthrough_subclass && t.list_subclass then .List
  else if !opts.passthrough_subclass && t.dict_subclass then .Dict
  else if t.enum_subclass then .Enum
  else if !opts.passthrough_dataclass && t.has_dataclass_fields then .Dataclass
  else if opts.serialize_numpy && t.numpy_scalar then .NumpyScalar
  else if opts.serialize_numpy && t.numpy_array then .NumpyArray
  else .Unknown

/-- `pyobject_to_obtype`: the fast path tests exact type identities in a
fixed order, then falls back to the slow path. -/
def pyobject_to_obtype (t : TypeInfo) (opts : Opt) : ObType :=
  if t.id == .tstr then .Str
  else if t.id == .tint then .Int
  else if t.id == .tbool then .Bool
  else if t.id == .tnone then .None
  else if t.id == .tfloat then .Float
  else if t.id == .tlist then .List
  else if t.id == .tdict then .Dict
  else if t.id == .tdatetime && !opts.passthrough_datetime then .Datetime
  else pyobject_to_obtype_unlikely t opts

/-- The classification order exactly as the specification words it: an
ordered rule list, taking the first rule whose test holds, `Unknown` when
none does. -/
def classify_rules (t : TypeInfo) (o : Opt) : List (Bool × ObType) :=
  [ (t.id == .tstr, .Str),
    (t.id == .tint, .Int),
    (t.id == .tbool, .Bool),
    (t.id == .tnone, .None),
    (t.id == .tfloat, .Float),
    (t.id == .tlist, .List),
    (t.id == .tdict, .Dict),
    (t.id == .tdatetime && !o.passthrough_datetime, .Datetime),
    (t.id == .tuuid, .Uuid),
    (t.id == .ttuple, .Tuple),
    (t.id == .tfragment, .Fragment),
    (t.id == .tdate && !o.passthrough_datetime, .Date),
    (t.id == .ttime && !o.passthrough_datetime, .Time),
    (t.unicode_subclass && !o.passthrough_subclass, .StrSubclass),
    (t.long_subclass && !o.passthrough_subclass, .Int),
    (t.list_subclass && !o.passthrough_subclass, .List),
    (t.dict_subclass && !o.passthrough_subclass, .Dict),
    (t.enum_subclass, .Enum),
    (t.has_dataclass_fields && !o.passthrough_dataclass, .Dataclass),
    (t.numpy_scalar && o.serialize_numpy, .NumpyScalar),
    (t.numpy_array && o.serialize_numpy, .NumpyArray) ]

/-- First-match semantics over the spec's ordered rule list. -/
def classify_spec (t : TypeInfo) (o : Opt) : ObType :=
  match (classify_rules t o).find? (fun r => r.1) with
  | some r => r.2
  | none => .Unknown

/-! #### Bit-manipulation helper lemmas -/

theorem testBit_mul_pow (a k i : Nat) :
    (a * 2 ^ k).testBit i = (decide (i ≥ k) && a.testBit (i - k)) := by
  rw [Nat.mul_comm, Nat.testBit_mul_pow_two]

theorem land_section (x k m : Nat) :
    x &&& ((2 ^ m - 1) <<< k) = x / 2 ^ k % 2 ^ m * 2 ^ k := by
  apply Nat.eq_of_testBit_eq
  intro i
  rw [Nat.testBit_and, Nat.testBit_shiftLeft, Nat.testBit_two_pow_sub_one,
    testBit_mul_pow, Nat.testBit_mod_two_pow, ← Nat.shiftRight_eq_div_pow,
    Nat.testBit_shiftRight]
  rcases Nat.lt_or_ge i k with hik | hik
  · simp [Nat.not_le_of_lt hik]
  · rw [Nat.add_sub_cancel' hik]
    simp only [hik, decide_eq_true_eq, Bool.true_and, decide_True]
    cases x.testBit i <;> cases decide (i - k < m) <;> simp

theorem land_hi (x : Nat) : x &&& RECURSION_MASK = x / 2 ^ 24 % 256 * 2 ^ 24 := by
  have h : RECURSION_MASK = (2 ^ 8 - 1) <<< 24 := by decide
  rw [h, land_section]
  norm_num

theorem land_defmask (x : Nat) : x &&& DEFAULT_MASK = x / 2 ^ 16 % 256 * 2 ^ 16 := by
  have h : DEFAULT_MASK = (2 ^ 8 - 1) <<< 16 := by decide
  rw [h, land_section]
  norm_num

theorem land_lo24 (x : Nat) : x &&& NOT_RECURSION_MASK = x % 2 ^ 24 := by
  have h : NOT_RECURSION_MASK = (2 ^ 24 - 1) <<< 0 := by decide
  rw [h, land_section]
  simp

theorem land_lo16 (x : Nat) : x &&& 65535 = x % 2 ^ 16 := by
  have h : (65535 : Nat) = (2 ^ 16 - 1) <<< 0 := by decide
  rw [h, land_section]
  simp

/-- Disjoint bit-or is addition: `b + a·2^k = a·2^k ||| b` when `b < 2^k`. -/
theorem add_mul_pow_lor (b a k : Nat) (h : b < 2 ^ k) :
    b + a * 2 ^ k = a * 2 ^ k ||| b := by
  have h2 := Nat.mul_add_lt_is_or h a
  rw [Nat.mul_comm (2 ^ k) a] at h2
  omega

/-- Disjoint bit-or is addition: `a ||| m·2^k = a + m·2^k` when `a < 2^k`. -/
theorem lor_mul_pow (a m k : Nat) (h : a < 2 ^ k) :
    a ||| m * 2 ^ k = a + m * 2 ^ k := by
  have h2 := add_mul_pow_lor a m k h
  rw [Nat.or_comm] at h2
  omega

theorem land_notdef (x : Nat) :
    x &&& NOT_DEFAULT_MASK = x % 2 ^ 16 + x / 2 ^ 24 % 256 * 2 ^ 24 := by
  have h : NOT_DEFAULT_MASK = RECURSION_MASK ||| 65535 := by decide
  rw [h, Nat.and_or_distrib_left, land_hi, land_lo16, Nat.or_comm]
  have hlt : x % 2 ^ 16 < 2 ^ 24 := by
    have := Nat.mod_lt x (y := 2 ^ 16) (by decide)
    omega
  rw [lor_mul_pow _ _ _ hlt]

theorem mul_pow_shiftRight (q k : Nat) : (q * 2 ^ k) >>> k = q := by
  rw [Nat.shiftRight_eq_div_pow]
  exact Nat.mul_div_cancel q (Nat.two_pow_pos k)

/-- `(a ||| b)·2^k = a·2^k ||| b·2^k`. -/
theorem mul_pow_lor (a b k : Nat) :
    (a ||| b) * 2 ^ k = a * 2 ^ k ||| b * 2 ^ k := by
  apply Nat.eq_of_testBit_eq
  intro i
  rw [testBit_mul_pow, Nat.testBit_or, Nat.testBit_or, testBit_mul_pow, testBit_mul_pow,
    Bool.and_or_distrib_left]

theorem or3_decomp (f e r : Nat) (hf : f < 2 ^ 16) (he : e ≤ 255) :
    (f + r * 2 ^ 24) ||| e * 2 ^ 16 = f + e * 2 ^ 16 + r * 2 ^ 24 := by
  rw [add_mul_pow_lor f r 24 (by omega)]
  rw [Nat.or_assoc]
  rw [lor_mul_pow f e 16 hf]
  rw [Nat.or_comm]
  rw [lor_mul_pow (f + e * 2 ^ 16) r 24 (by omega)]

theorem or_sat_decomp (f r : Nat) (hf : f < 2 ^ 16) :
    (f + r * 2 ^ 24) ||| 2 ^ 24 = f + (r ||| 1) * 2 ^ 24 := by
  rw [add_mul_pow_lor f r 24 (by omega)]
  rw [Nat.or_comm (r * 2 ^ 24) f, Nat.or_assoc]
  have h1 := mul_pow_lor r 1 24
  rw [Nat.one_mul] at h1
  rw [← h1]
  rw [lor_mul_pow f (r ||| 1) 24 (by omega)]

/-! #### Characterization of the copy operations by div/mod arithmetic -/

theorem copy_for_recursive_call_eq (s : SerializerState) :
    (s.copy_for_recursive_call).state
      = s.state % 2 ^ 24 + (s.state / 2 ^ 24 % 256 + 1) % 256 * 2 ^ 24 := by
  show (s.state &&& NOT_RECURSION_MASK) |||
      ((((s.state &&& RECURSION_MASK) >>> RECURSION_SHIFT) + 1) <<< RECURSION_SHIFT) % U32_SIZE
    = _
  have hs : RECURSION_SHIFT = 24 := rfl
  rw [hs, land_lo24, land_hi, mul_pow_shiftRight, Nat.shiftLeft_eq]
  have h2 : (s.state / 2 ^ 24 % 256 + 1) * 2 ^ 24 % U32_SIZE
      = (s.state / 2 ^ 24 % 256 + 1) % 256 * 2 ^ 24 := by
    show _ % 4294967296 = _
    omega
  rw [h2, lor_mul_pow]
  exact Nat.mod_lt _ (by decide)

theorem copy_for_default_call_eq (s : SerializerState)
    (h : s.state / 2 ^ 16 % 256 < 255) :
    (s.copy_for_default_call).state
      = s.state % 2 ^ 16 + (s.state / 2 ^ 16 % 256 + 1) * 2 ^ 16
        + s.state / 2 ^ 24 % 256 * 2 ^ 24 := by
  show (s.state &&& NOT_DEFAULT_MASK) |||
      ((((s.state &&& DEFAULT_MASK) >>> DEFAULT_SHIFT) + 1) <<< DEFAULT_SHIFT) % U32_SIZE
    = _
  have hs : DEFAULT_SHIFT = 16 := rfl
  rw [hs, land_notdef, land_defmask, mul_pow_shiftRight, Nat.shiftLeft_eq]
  have h2 : (s.state / 2 ^ 16 % 256 + 1) * 2 ^ 16 % U32_SIZE
      = (s.state / 2 ^ 16 % 256 + 1) * 2 ^ 16 := by
    apply Nat.mod_eq_of_lt
    show _ < 4294967296
    omega
  rw [h2]
  exact or3_decomp _ _ _ (Nat.mod_lt _ (by decide)) (by omega)

/-- Saturated case of `copy_for_default_call`: the increment of the 8-bit
default field carries into bit 24, i.e. into the recursion field. -/
theorem copy_for_default_call_sat (s : SerializerState)
    (h : s.state / 2 ^ 16 % 256 = 255) :
    (s.copy_for_default_call).state
      = s.state % 2 ^ 16 + (s.state / 2 ^ 24 % 256 ||| 1) * 2 ^ 24 := by
  show (s.state &&& NOT_DEFAULT_MASK) |||
      ((((s.state &&& DEFAULT_MASK) >>> DEFAULT_SHIFT) + 1) <<< DEFAULT_SHIFT) % U32_SIZE
    = _
  have hs : DEFAULT_SHIFT = 16 := rfl
  rw [hs, land_notdef, land_defmask, mul_pow_shiftRight, Nat.shiftLeft_eq, h]
  have h2 : (255 + 1) * 2 ^ 16 % U32_SIZE = 2 ^ 24 := by decide
  rw [h2]
  exact or_sat_decomp _ _ (Nat.mod_lt _ (by decide))

theorem recursionCounter_eq (s : SerializerState) :
    s.recursionCounter = s.state / 2 ^ 24 % 256 := by
  show (s.state &&& RECURSION_MASK) >>> RECURSION_SHIFT = _
  have hs : RECURSION_SHIFT = 24 := rfl
  rw [hs, land_hi, mul_pow_shiftRight]

theorem defaultCounter_eq (s : SerializerState) :
    s.defaultCounter = s.state / 2 ^ 16 % 256 := by
  show (s.state &&& DEFAULT_MASK) >>> DEFAULT_SHIFT = _
  have hs : DEFAULT_SHIFT = 16 := rfl
  rw [hs, land_defmask, mul_pow_shiftRight]

theorem optBits_eq (s : SerializerState) : s.optBits = s.state % 2 ^ 16 :=
  land_lo16 s.state

theorem recursion_limit_iff (s : SerializerState) :
    s.recursion_limit = true ↔ s.state / 2 ^ 24 % 256 = 255 := by
  show (s.state &&& RECURSION_MASK == RECURSION_MASK) = true ↔ _
  rw [land_hi]
  simp only [beq_iff_eq]
  have h : RECURSION_MASK = 255 * 2 ^ 24 := by decide
  rw [h]
  constructor
  · intro he
    exact Nat.eq_of_mul_eq_mul_right (by decide) he
  · intro he
    rw [he]

theorem default_calls_limit_iff (s : SerializerState) :
    s.default_calls_limit = true ↔ s.state / 2 ^ 16 % 256 = 255 := by
  show (s.state &&& DEFAULT_MASK == DEFAULT_MASK) = true ↔ _
  rw [land_defmask]
  simp only [beq_iff_eq]
  have h : DEFAULT_MASK = 255 * 2 ^ 16 := by decide
  rw [h]
  constructor
  · intro he
    exact Nat.eq_of_mul_eq_mul_right (by decide) he
  · intro he
    rw [he]

/-! #### Materializer lemmas -/

theorem yylist_length_eq_zero : ∀ (es : YYList), es.length = 0 → es = .nil
  | .nil, _ => rfl
  | .cons _ _, h => by simp [YYList.length] at h

theorem yypairs_length_eq_zero : ∀ (ps : YYPairs), ps.length = 0 → ps = .nil
  | .nil, _ => rfl
  | .cons _ _ _, h => by simp [YYPairs.length] at h

theorem populate_yy_array_length :
    ∀ (es : YYList), (populate_yy_array es).length = es.length
  | .nil => by simp [populate_yy_array, PyList.length, YYList.length]
  | .cons v tl => by
    simp [populate_yy_array, PyList.length, YYList.length,
      populate_yy_array_length tl]

theorem populate_simple_length :
    ∀ (ps : YYPairs), (populate_simple ps).length = ps.length
  | .nil => by simp [populate_simple, PyPairs.length, YYPairs.length]
  | .cons k v tl => by
    simp [populate_simple, PyPairs.length, YYPairs.length,
      populate_simple_length tl]

theorem pypairs_append_nil : ∀ (p : PyPairs), p.append .nil = p
  | .nil => rfl
  | .cons k v tl => by
    simp [PyPairs.append, pypairs_append_nil tl]

theorem pypairs_append_assoc :
    ∀ (p q r : PyPairs), (p.append q).append r = p.append (q.append r)
  | .nil, q, r => rfl
  | .cons k v tl, q, r => by
    simp [PyPairs.append, pypairs_append_assoc tl q r]

theorem pypairs_append_keys :
    ∀ (p q : PyPairs), (p.append q).keys = p.keys ++ q.keys
  | .nil, q => by simp [PyPairs.append, PyPairs.keys]
  | .cons k v tl, q => by
    simp [PyPairs.append, PyPairs.keys, pypairs_append_keys tl q]

/-- `pydict_setitem` with a key not yet in the dict appends the pair. -/
theorem set_item_fresh :
    ∀ (acc : PyPairs) (k : String) (v : PyValue), k ∉ acc.keys →
      acc.set_item k v = acc.append (.cons k v .nil)
  | .nil, k, v, _ => rfl
  | .cons k2 v2 tl, k, v, hk => by
    simp only [PyPairs.keys, List.mem_cons, not_or] at hk
    rw [PyPairs.set_item, if_neg (fun he => hk.1 he.symm)]
    rw [set_item_fresh tl k v hk.2]
    rfl

/-- Without repeated keys (and with the keys absent from the accumulated
dict), object population appends exactly one pair per declared pair. -/
theorem populate_obj_acc :
    ∀ (ps : YYPairs) (acc : PyPairs), keys_distinct ps = true →
      (∀ k, k ∈ ps.keys → k ∉ acc.keys) →
      populate_yy_object ps acc = acc.append (populate_simple ps)
  | .nil, acc, _, _ => by
    simp [populate_yy_object, populate_simple, pypairs_append_nil]
  | .cons k v tl, acc, hdist, hdisj => by
    have h1 : k ∉ tl.keys ∧ keys_distinct tl = true := by
      simpa [keys_distinct] using hdist
    have hk : k ∉ acc.keys := hdisj k (by simp [YYPairs.keys])
    have hdisj2 : ∀ k2, k2 ∈ tl.keys →
        k2 ∉ (acc.append (.cons k (materialize_elem v) .nil)).keys := by
      intro k2 hk2
      rw [pypairs_append_keys]
      simp only [PyPairs.keys, List.mem_append, List.mem_cons,
        List.not_mem_nil, or_false, not_or]
      refine ⟨hdisj k2 (by simp [YYPairs.keys, hk2]), ?_⟩
      intro heq
      exact h1.1 (heq ▸ hk2)
    have hrec := populate_obj_acc tl
      (acc.append (.cons k (materialize_elem v) .nil)) h1.2 hdisj2
    show populate_yy_object tl (acc.set_item k (materialize_elem v)) = _
    rw [set_item_fresh acc k (materialize_elem v) hk, hrec,
      pypairs_append_assoc]
    rfl

mutual
theorem counts_match_elem : ∀ (v : YYVal), no_dup_keys v = true →
    counts_match v (materialize_elem v) = true
  | .vstr s, _ => by simp [materialize_elem, parse_primitive, counts_match]
  | .vuint n, _ => by simp [materialize_elem, parse_primitive, counts_match]
  | .vint n, _ => by simp [materialize_elem, parse_primitive, counts_match]
  | .vreal b, _ => by simp [materialize_elem, parse_primitive, counts_match]
  | .vtrue, _ => by simp [materialize_elem, parse_primitive, counts_match]
  | .vfalse, _ => by simp [materialize_elem, parse_primitive, counts_match]
  | .vnull, _ => by simp [materialize_elem, parse_primitive, counts_match]
  | .varr es, h => by
    have hl : no_dup_keys_list es = true := by
      simpa [no_dup_keys] using h
    by_cases h0 : 0 < es.length
    · simp [materialize_elem, counts_match, h0, populate_yy_array_length,
        counts_match_list_all es hl]
    · have h2 : es = .nil := yylist_length_eq_zero es (by omega)
      subst h2
      simp [materialize_elem, counts_match, counts_match_list,
        YYList.length, PyList.length]
  | .vobj ps, h => by
    have hp : keys_distinct ps = true ∧ no_dup_keys_pairs ps = true := by
      simpa [no_dup_keys] using h
    have hpop : populate_yy_object ps .nil = populate_simple ps := by
      rw [populate_obj_acc ps .nil hp.1 (by simp [PyPairs.keys])]
      rfl
    by_cases h0 : 0 < ps.length
    · simp [materialize_elem, counts_match, h0, hpop, populate_simple_length,
        counts_match_pairs_simple ps hp.2]
    · have h2 : ps = .nil := yypairs_length_eq_zero ps (by omega)
      subst h2
      simp [materialize_elem, counts_match, counts_match_pairs,
        YYPairs.length, PyPairs.length]
theorem counts_match_list_all :
    ∀ (es : YYList), no_dup_keys_list es = true →
      counts_match_list es (populate_yy_array es) = true
  | .nil, _ => by simp [populate_yy_array, counts_match_list]
  | .cons v tl, h => by
    have hs : no_dup_keys v = true ∧ no_dup_keys_list tl = true := by
      simpa [no_dup_keys_list] using h
    simp [populate_yy_array, counts_match_list, counts_match_elem v hs.1,
      counts_match_list_all tl hs.2]
theorem counts_match_pairs_simple :
    ∀ (ps : YYPairs), no_dup_keys_pairs ps = true →
      counts_match_pairs ps (populate_simple ps) = true
  | .nil, _ => by simp [populate_simple, counts_match_pairs]
  | .cons k v tl, h => by
    have hs : no_dup_keys v = true ∧ no_dup_keys_pairs tl = true := by
      simpa [no_dup_keys_pairs] using h
    simp [populate_simple, counts_match_pairs, counts_match_elem v hs.1,
      counts_match_pairs_simple tl hs.2]
end

theorem materialize_root_eq_elem (root : YYVal) :
    materialize_root root = materialize_elem root := by
  cases root <;> rfl

mutual
theorem elem_lens_pos : ∀ (v : YYVal) (n : Nat), n ∈ elem_populate_lens v → 1 ≤ n
  | .vstr s, n, h => by simp [elem_populate_lens] at h
  | .vuint m, n, h => by simp [elem_populate_lens] at h
  | .vint m, n, h => by simp [elem_populate_lens] at h
  | .vreal b, n, h => by simp [elem_populate_lens] at h
  | .vtrue, n, h => by simp [elem_populate_lens] at h
  | .vfalse, n, h => by simp [elem_populate_lens] at h
  | .vnull, n, h => by simp [elem_populate_lens] at h
  | .varr es, n, h => by
    by_cases h0 : 0 < es.length
    · simp [elem_populate_lens, h0] at h
      rcases h with h | h
      · omega
      · exact list_lens_pos es n h
    · simp [elem_populate_lens, h0] at h
  | .vobj ps, n, h => by
    by_cases h0 : 0 < ps.length
    · simp [elem_populate_lens, h0] at h
      rcases h with h | h
      · omega
      · exact pairs_lens_pos ps n h
    · simp [elem_populate_lens, h0] at h
theorem list_lens_pos : ∀ (es : YYList) (n : Nat), n ∈ list_populate_lens es → 1 ≤ n
  | .nil, n, h => by simp [list_populate_lens] at h
  | .cons v tl, n, h => by
    simp [list_populate_lens] at h
    rcases h with h | h
    · exact elem_lens_pos v n h
    · exact list_lens_pos tl n h
theorem pairs_lens_pos : ∀ (ps : YYPairs) (n : Nat), n ∈ pairs_populate_lens ps → 1 ≤ n
  | .nil, n, h => by simp [pairs_populate_lens] at h
  | .cons k v tl, n, h => by
    simp [pairs_populate_lens] at h
    rcases h with h | h
    · exact elem_lens_pos v n h
    · exact pairs_lens_pos tl n h
end

/-- The packed word after `n ≤ 255` recursive-call copies from a fresh state. -/
theorem iterate_rec (flags : Nat) (hf : flags < 2 ^ 16) :
    ∀ n, n ≤ 255 →
      (SerializerState.copy_for_recursive_call^[n] (SerializerState.new flags)).state
        = flags + n * 2 ^ 24
  | 0, _ => by simp [SerializerState.new]
  | n + 1, h => by
    have ih := iterate_rec flags hf n (by omega)
    rw [Function.iterate_succ_apply', copy_for_recursive_call_eq, ih]
    omega

/-- The packed word after `n ≤ 255` default-call copies from a fresh state. -/
theorem iterate_def (flags : Nat) (hf : flags < 2 ^ 16) :
    ∀ n, n ≤ 255 →
      (SerializerState.copy_for_default_call^[n] (SerializerState.new flags)).state
        = flags + n * 2 ^ 16
  | 0, _ => by simp [SerializerState.new]
  | n + 1, h => by
    have ih := iterate_def flags hf n (by omega)
    rw [Function.iterate_succ_apply',
      copy_for_default_call_eq _ (by rw [ih]; omega), ih]
    omega

/-! #### Buffer-pool lemmas -/

theorem nextPowerOfTwo_go_ge (n power : Nat) (h : 0 < power) :
    n ≤ Nat.nextPowerOfTwo.go n power h := by
  unfold Nat.nextPowerOfTwo.go
  split
  next hlt => exact nextPowerOfTwo_go_ge n (power * 2) (Nat.mul_pos h (by decide))
  next hge => omega
termination_by n - power
decreasing_by
  simp_wf
  omega

theorem le_nextPowerOfTwo (n : Nat) : n ≤ Nat.nextPowerOfTwo n :=
  nextPowerOfTwo_go_ge n 1 (by decide)

theorem ensure_capacity_ptr_eq (b : ParseBuffer) (alloc : Nat → Option Nat)
    (required : Nat) :
    ((b.ensure_capacity alloc required).2).ptr
      = (b.ensure_capacity alloc required).1.1 := by
  unfold ParseBuffer.ensure_capacity
  split
  · rfl
  · rfl

/-! #### Key-cache lemmas -/

theorem get_unicode_key_find_stable (xxh3 : List Nat → Nat) (m : KeyMap)
    (other : List Nat) (h : Nat) (e : Nat × PyStrH)
    (hfind : m.table.find? (fun en => en.1 == h) = some e) :
    ((get_unicode_key xxh3 m other).2).table.find? (fun en => en.1 == h)
      = some e := by
  unfold get_unicode_key
  split
  · exact hfind
  · rcases hf2 : m.table.find? (fun en => en.1 == xxh3 other) with _ | e2
    · simp only [hf2]
      by_cases hc : xxh3 other = h
      · rw [hc] at hf2
        rw [hfind] at hf2
        cases hf2
      · rw [List.find?_cons_of_neg]
        · exact hfind
        · simp [hc]
    · simp only [hf2]
      exact hfind

theorem get_unicode_key_self_find (xxh3 : List Nat → Nat) (m : KeyMap)
    (key : List Nat) (hlen : key.length ≤ 64) :
    ((get_unicode_key xxh3 m key).2).table.find? (fun en => en.1 == xxh3 key)
      = some (xxh3 key, (get_unicode_key xxh3 m key).1) := by
  unfold get_unicode_key
  split
  next hgt => omega
  next hgt =>
    rcases hf : m.table.find? (fun en => en.1 == xxh3 key) with _ | e
    · simp only [hf]
      rw [List.find?_cons_of_pos]
      simp
    · simp only [hf]
      have hpe := List.find?_some hf
      simp only [beq_iff_eq] at hpe
      rw [← hpe]

theorem get_unicode_key_found (xxh3 : List Nat → Nat) (m : KeyMap)
    (key : List Nat) (hlen : key.length ≤ 64) (e : Nat × PyStrH)
    (hf : m.table.find? (fun en => en.1 == xxh3 key) = some e) :
    (get_unicode_key xxh3 m key).1 = e.2 := by
  unfold get_unicode_key
  split
  next hgt => omega
  next hgt => simp only [hf]

theorem run_lookups_find_stable (xxh3 : List Nat → Nat)
    (keys : List (List Nat)) :
    ∀ (m : KeyMap) (h : Nat) (e : Nat × PyStrH),
      m.table.find? (fun en => en.1 == h) = some e →
      ((run_lookups xxh3 m keys)).table.find? (fun en => en.1 == h) = some e := by
  induction keys with
  | nil =>
    intro m h e hf
    exact hf
  | cons k ks ih =>
    intro m h e hf
    show ((run_lookups xxh3 ((get_unicode_key xxh3 m k).2) ks)).table.find?
        (fun en => en.1 == h) = some e
    exact ih _ _ _ (get_unicode_key_find_stable xxh3 m k h e hf)

/-! ### Claim theorems -/

set_option maxRecDepth 4000

/-- **C1 counterexample**: on the valid input `{"a":1,"a":2}` — an object
node with declared pair count 2 — `pydict_setitem` overwrites the earlier
entry for the repeated key, so the materialized dict holds one entry while
its declared count (and presized capacity) is 2: the resulting object
length does not equal the declared count. -/
theorem materialize_dup_key_cex :
    materialize_root (.vobj (.cons "a" (.vuint 1) (.cons "a" (.vuint 2) .nil)))
      = .pdict 2 (.cons "a" (.pint 2) .nil)
    ∧ (YYPairs.cons "a" (.vuint 1) (.cons "a" (.vuint 2) .nil)).length = 2
    ∧ (PyPairs.cons "a" (.pint 2) .nil).length ≠ 2 := by
  refine ⟨rfl, rfl, ?_⟩
  decide

/-- **C1 (amended)**: for every document tree whose root is an array or
object, the materializer allocates each native container (at the root and
at every nesting level) presized to exactly the node's declared
element/pair count, performs exactly that many element/pair writes, and
never resizes the container; resulting array lengths equal the declared
counts at every level, and, provided every object node's keys are pairwise
distinct, resulting object lengths do too (a duplicate key is overwritten
by `pydict_setitem`, leaving one entry per distinct key). -/
theorem materialize_counts_exact (root : YYVal)
    (h : no_dup_keys root = true) :
    counts_match root (materialize_root root) = true := by
  rw [materialize_root_eq_elem]
  exact counts_match_elem root h

/-- Witness for C1 at a concrete duplicate-free document
`{"a":1,"b":[null]}`. -/
theorem materialize_counts_exact_witness :
    no_dup_keys (.vobj (.cons "a" (.vuint 1)
        (.cons "b" (.varr (.cons .vnull .nil)) .nil))) = true
    ∧ counts_match (.vobj (.cons "a" (.vuint 1)
        (.cons "b" (.varr (.cons .vnull .nil)) .nil)))
        (materialize_root (.vobj (.cons "a" (.vuint 1)
          (.cons "b" (.varr (.cons .vnull .nil)) .nil)))) = true :=
  ⟨by decide,
    materialize_counts_exact (.vobj (.cons "a" (.vuint 1)
      (.cons "b" (.varr (.cons .vnull .nil)) .nil))) (by decide)⟩

/-- **C10**: the populate routines are only invoked on containers with a
declared count of at least one — every populate invocation length recorded
during materialization is ≥ 1 — and a container with declared count 0
materializes to an empty presized native container with no population
call. -/
theorem populate_invocation_lengths_positive (root : YYVal) :
    (∀ n ∈ elem_populate_lens root, 1 ≤ n)
    ∧ materialize_root (.varr .nil) = .plist 0 .nil
    ∧ materialize_root (.vobj .nil) = .pdict 0 .nil
    ∧ elem_populate_lens (.varr .nil) = []
    ∧ elem_populate_lens (.vobj .nil) = [] :=
  ⟨fun n h => elem_lens_pos root n h, rfl, rfl, rfl, rfl⟩

/-- Witness for C10 at a concrete two-element array: the recorded
invocation length 2 is positive, and the empty array materializes with no
population call. -/
theorem populate_invocation_lengths_positive_witness :
    1 ≤ 2 ∧ materialize_root (.varr .nil) = .plist 0 .nil :=
  ⟨(populate_invocation_lengths_positive
      (.varr (.cons .vnull (.cons .vnull .nil)))).1 2 (by decide),
    (populate_invocation_lengths_positive (.varr .nil)).2.1⟩

/-- **C2 counterexample**: the claim says the 256th application of
`copy_for_recursive_call` does not wrap the 8-bit recursion counter back
to 0.  On the code it does: starting from `new(0)`, after 255 applications
the counter is saturated, and the 256th application yields counter 0. -/
theorem serializer_wrap_cex :
    (SerializerState.copy_for_recursive_call^[255]
        (SerializerState.new 0)).recursion_limit = true
    ∧ (SerializerState.copy_for_recursive_call^[256]
        (SerializerState.new 0)).recursionCounter = 0 := by
  constructor
  · decide
  · decide

/-- **C2 (amended)**: for every `new(flags)` with `flags` in the `u16`
range, 255 consecutive `copy_for_recursive_call` applications make
`recursion_limit()` true, but the 256th application wraps the recursion
counter to 0 instead of saturating; likewise 255 `copy_for_default_call`
applications make `default_calls_limit()` true and the 256th wraps the
default counter to 0, carrying a one into the recursion counter. -/
theorem serializer_counter_wrap (flags : Nat) (hf : flags < 65535) :
    (SerializerState.copy_for_recursive_call^[255]
        (SerializerState.new flags)).recursion_limit = true
    ∧ (SerializerState.copy_for_recursive_call^[256]
        (SerializerState.new flags)).recursionCounter = 0
    ∧ (SerializerState.copy_for_default_call^[255]
        (SerializerState.new flags)).default_calls_limit = true
    ∧ (SerializerState.copy_for_default_call^[256]
        (SerializerState.new flags)).defaultCounter = 0
    ∧ (SerializerState.copy_for_default_call^[256]
        (SerializerState.new flags)).recursionCounter = 1 := by
  have hf16 : flags < 2 ^ 16 := by omega
  have h255r := iterate_rec flags hf16 255 (by omega)
  have h255d := iterate_def flags hf16 255 (by omega)
  refine ⟨?_, ?_, ?_, ?_, ?_⟩
  · rw [recursion_limit_iff, h255r]
    omega
  · rw [show (256 : Nat) = 255 + 1 from rfl, Function.iterate_succ_apply',
      recursionCounter_eq, copy_for_recursive_call_eq, h255r]
    omega
  · rw [default_calls_limit_iff, h255d]
    omega
  · rw [show (256 : Nat) = 255 + 1 from rfl, Function.iterate_succ_apply',
      defaultCounter_eq, copy_for_default_call_sat _ (by rw [h255d]; omega),
      h255d]
    have hz : (flags + 255 * 2 ^ 16) / 2 ^ 24 % 256 = 0 := by omega
    rw [hz, Nat.zero_or]
    omega
  · rw [show (256 : Nat) = 255 + 1 from rfl, Function.iterate_succ_apply',
      recursionCounter_eq, copy_for_default_call_sat _ (by rw [h255d]; omega),
      h255d]
    have hz : (flags + 255 * 2 ^ 16) / 2 ^ 24 % 256 = 0 := by omega
    rw [hz, Nat.zero_or]
    omega

/-- Witness for C2 at `flags = 0`. -/
theorem serializer_counter_wrap_witness :
    (SerializerState.copy_for_default_call^[256]
        (SerializerState.new 0)).defaultCounter = 0 :=
  (serializer_counter_wrap 0 (by decide)).2.2.2.1

/-- **C7 counterexample**: with the recursion counter at 255,
`copy_for_recursive_call` does not increment it by one (it wraps to 0);
with the default counter at 255, `copy_for_default_call` does not leave the
recursion counter unchanged (the carry sets it from 0 to 1). -/
theorem copy_frame_cex :
    (SerializerState.mk (255 <<< 24)).copy_for_recursive_call.recursionCounter
      ≠ (SerializerState.mk (255 <<< 24)).recursionCounter + 1
    ∧ (SerializerState.mk (255 <<< 16)).copy_for_default_call.recursionCounter
      ≠ (SerializerState.mk (255 <<< 16)).recursionCounter := by
  constructor
  · decide
  · decide

/-- **C7 (amended)**: whenever the relevant 8-bit counter is strictly below
255, `copy_for_recursive_call` increments the recursion counter by exactly
one leaving the option flags and the default-call counter unchanged, and
`copy_for_default_call` increments the default-call counter by exactly one
leaving the option flags and the recursion counter unchanged; at counter
255 the increment wraps (see the counterexample). -/
theorem copy_for_call_frame (s : SerializerState) :
    (s.recursionCounter < 255 →
      (s.copy_for_recursive_call).recursionCounter = s.recursionCounter + 1
      ∧ (s.copy_for_recursive_call).optBits = s.optBits
      ∧ (s.copy_for_recursive_call).defaultCounter = s.defaultCounter)
    ∧ (s.defaultCounter < 255 →
      (s.copy_for_default_call).defaultCounter = s.defaultCounter + 1
      ∧ (s.copy_for_default_call).optBits = s.optBits
      ∧ (s.copy_for_default_call).recursionCounter = s.recursionCounter) := by
  constructor
  · intro h
    rw [recursionCounter_eq] at h
    refine ⟨?_, ?_, ?_⟩
    · rw [recursionCounter_eq, recursionCounter_eq, copy_for_recursive_call_eq]
      omega
    · rw [optBits_eq, optBits_eq, copy_for_recursive_call_eq]
      omega
    · rw [defaultCounter_eq, defaultCounter_eq, copy_for_recursive_call_eq]
      omega
  · intro h
    rw [defaultCounter_eq] at h
    refine ⟨?_, ?_, ?_⟩
    · rw [defaultCounter_eq, defaultCounter_eq, copy_for_default_call_eq s h]
      omega
    · rw [optBits_eq, optBits_eq, copy_for_default_call_eq s h]
      omega
    · rw [recursionCounter_eq, recursionCounter_eq, copy_for_default_call_eq s h]
      omega

/-- Witness for C7 at the fresh state. -/
theorem copy_for_call_frame_witness :
    (SerializerState.new 0).copy_for_recursive_call.recursionCounter
      = (SerializerState.new 0).recursionCounter + 1
    ∧ (SerializerState.new 0).copy_for_default_call.defaultCounter
      = (SerializerState.new 0).defaultCounter + 1 :=
  ⟨((copy_for_call_frame (SerializerState.new 0)).1 (by decide)).1,
    ((copy_for_call_frame (SerializerState.new 0)).2 (by decide)).1⟩

/-- **C3 counterexample**: in the open hash-map variant (`get_unicode_key`),
a cached entry's handle is returned on hash agreement alone: under a
colliding hash oracle, the handle interned for the 2-byte key `"ab"` is
returned for the 3-byte key `"xyz"`, whose length does not match. -/
theorem open_map_hit_without_len_match :
    (get_unicode_key (fun _ => 0)
        ((get_unicode_key (fun _ => 0) ⟨[], 0⟩ [97, 98]).2) [120, 121, 122]).1
      = ⟨0, [97, 98]⟩
    ∧ ([120, 121, 122] : List Nat).length ≠ ([97, 98] : List Nat).length := by
  constructor
  · decide
  · decide

/-- **C3 (amended)**: in the direct-mapped `KeyCache`, a cache hit is
honored only when the slot is occupied and both the stored hash and the
stored (`u8`-truncated) length equal those of the looked-up key, and the
returned handle is the stored one; in the open hash-map variant
(`get_unicode_key`), an entry stored under the key's hash is returned on
hash agreement alone — no length is stored or compared. -/
theorem cache_hit_conditions (c : KeyCache) (nid : Nat) (key : List Nat)
    (xxh3 : List Nat → Nat) (m : KeyMap) :
    ((c.get_or_insert nid key).2.2.2 = true →
      (c.entries (fnv1a_hash key &&& CACHE_MASK)).hash = fnv1a_hash key
      ∧ (c.entries (fnv1a_hash key &&& CACHE_MASK)).len = key.length % 256
      ∧ (c.entries (fnv1a_hash key &&& CACHE_MASK)).ptr
          = some (c.get_or_insert nid key).1)
    ∧ (key.length ≤ 64 →
      ∀ e, m.table.find? (fun en => en.1 == xxh3 key) = some e →
        (get_unicode_key xxh3 m key).1 = e.2) := by
  constructor
  · intro hhit
    unfold KeyCache.get_or_insert at hhit ⊢
    by_cases hcond : (c.entries (fnv1a_hash key &&& CACHE_MASK)).ptr.isSome = true
        ∧ (c.entries (fnv1a_hash key &&& CACHE_MASK)).hash = fnv1a_hash key
        ∧ (c.entries (fnv1a_hash key &&& CACHE_MASK)).len = key.length % 256
    · rw [if_pos hcond]
      refine ⟨hcond.2.1, hcond.2.2, ?_⟩
      rcases hp : (c.entries (fnv1a_hash key &&& CACHE_MASK)).ptr with _ | p
      · rw [hp] at hcond
        simp at hcond
      · simp
    · rw [if_neg hcond] at hhit
      simp at hhit
  · intro hlen e hfind
    exact get_unicode_key_found xxh3 m key hlen e hfind

/-- Witness for C3: a repeated key hits the direct-mapped cache with
matching stored hash; a stored entry under the oracle hash 5 is returned by
the open hash-map lookup. -/
theorem cache_hit_conditions_witness :
    ((KeyCache.new.get_or_insert 0 [97]).2.1.entries
        (fnv1a_hash [97] &&& CACHE_MASK)).hash = fnv1a_hash [97]
    ∧ (get_unicode_key (fun _ => 5) ⟨[(5, ⟨9, [97]⟩)], 10⟩ [97]).1 = ⟨9, [97]⟩ :=
  ⟨((cache_hit_conditions ((KeyCache.new.get_or_insert 0 [97]).2.1) 1 [97]
      (fun _ => 5) ⟨[(5, ⟨9, [97]⟩)], 10⟩).1 (by decide)).1,
    (cache_hit_conditions ((KeyCache.new.get_or_insert 0 [97]).2.1) 1 [97]
      (fun _ => 5) ⟨[(5, ⟨9, [97]⟩)], 10⟩).2 (by decide) (5, ⟨9, [97]⟩) (by decide)⟩

/-- **C4**: `ensure_capacity(required)` returns the existing pointer and
capacity unchanged when the pool is already large enough; otherwise it
allocates a region of size `max(next_power_of_two(required), 4096)` (which
is at least `required`) and stores it; when that allocation fails it
returns the null indicator with a consistent empty pool, and the failure is
recoverable: a subsequent call on the pool with a succeeding allocator
returns a fresh region. -/
theorem ensure_capacity_contract (b : ParseBuffer) (alloc : Nat → Option Nat)
    (required : Nat) :
    (b.capacity ≥ required →
      b.ensure_capacity alloc required = ((b.ptr, b.capacity), b))
    ∧ required ≤ (Nat.nextPowerOfTwo required).max 4096
    ∧ (∀ q, b.capacity < required →
        alloc ((Nat.nextPowerOfTwo required).max 4096) = some q →
        b.ensure_capacity alloc required
          = ((some q, (Nat.nextPowerOfTwo required).max 4096),
             ⟨some q, (Nat.nextPowerOfTwo required).max 4096⟩))
    ∧ (b.capacity < required →
        alloc ((Nat.nextPowerOfTwo required).max 4096) = none →
        b.ensure_capacity alloc required = ((none, 0), ⟨none, 0⟩)
        ∧ ∀ (alloc2 : Nat → Option Nat) (req2 q2 : Nat),
            0 < req2 →
            alloc2 ((Nat.nextPowerOfTwo req2).max 4096) = some q2 →
            (ParseBuffer.ensure_capacity ⟨none, 0⟩ alloc2 req2).1.1 = some q2) := by
  refine ⟨?_, Nat.le_trans (le_nextPowerOfTwo required) (Nat.le_max_left _ _),
    ?_, ?_⟩
  · intro hge
    unfold ParseBuffer.ensure_capacity
    rw [if_pos hge]
  · intro q hlt halloc
    unfold ParseBuffer.ensure_capacity
    rw [if_neg (by omega)]
    simp [halloc]
  · intro hlt halloc
    constructor
    · unfold ParseBuffer.ensure_capacity
      rw [if_neg (by omega)]
      simp [halloc]
    · intro alloc2 req2 q2 hreq2 halloc2
      unfold ParseBuffer.ensure_capacity
      rw [if_neg (by show ¬ (0 ≥ req2); omega)]
      simp [halloc2]

/-- Witness for C4: a large-enough pool is reused unchanged; a failing
allocation yields the null indicator and the empty pool. -/
theorem ensure_capacity_contract_witness :
    ParseBuffer.ensure_capacity ⟨some 7, 4096⟩ (fun _ => none) 100
      = ((some 7, 4096), ⟨some 7, 4096⟩)
    ∧ ParseBuffer.ensure_capacity ⟨some 7, 4096⟩ (fun _ => none) 5000
        = ((none, 0), ⟨none, 0⟩) :=
  ⟨(ensure_capacity_contract ⟨some 7, 4096⟩ (fun _ => none) 100).1 (by decide),
    ((ensure_capacity_contract ⟨some 7, 4096⟩ (fun _ => none) 5000).2.2.2
      (by decide) rfl).1⟩

/-- **C5 counterexample**: the stored capacity is not monotonically
non-decreasing: a pool of capacity 4096 asked for 8192 with a failing
allocator ends with capacity 0 < 4096. -/
theorem ensure_capacity_capacity_shrinks :
    ((ParseBuffer.mk (some 1) 4096).ensure_capacity (fun _ => none) 8192).2.capacity
      = 0
    ∧ ((ParseBuffer.mk (some 1) 4096).ensure_capacity (fun _ => none) 8192).2.capacity
        < (ParseBuffer.mk (some 1) 4096).capacity := by
  refine ⟨?_, ?_⟩ <;> simp [ParseBuffer.ensure_capacity]

/-- **C5 (amended)**: after any `ensure_capacity` call the stored capacity
is at least the previous capacity, except when the call had to reallocate
and the allocation failed, in which case the null indicator is returned and
the stored capacity drops to 0. -/
theorem ensure_capacity_monotone_unless_alloc_fails (b : ParseBuffer)
    (alloc : Nat → Option Nat) (required : Nat) :
    b.capacity ≤ ((b.ensure_capacity alloc required).2).capacity
    ∨ ((b.ensure_capacity alloc required).1.1 = none
       ∧ ((b.ensure_capacity alloc required).2).capacity = 0
       ∧ b.capacity < required) := by
  unfold ParseBuffer.ensure_capacity
  split
  next hge =>
    left
    exact Nat.le_refl _
  next hge =>
    rcases halloc : alloc ((Nat.nextPowerOfTwo required).max 4096) with _ | q
    · right
      simp [halloc]
      omega
    · left
      simp [halloc]
      have h1 := le_nextPowerOfTwo required
      have h2 : Nat.nextPowerOfTwo required ≤ (Nat.nextPowerOfTwo required).max 4096 :=
        Nat.le_max_left _ _
      omega

/-- **C6**: through the open hash-map key cache, a key of length ≤ 64
looked up again after any further sequence of lookups resolves to the very
same handle as its first lookup, while a key of length > 64 is always
interned fresh and never populates or consults the cache (the table is left
untouched and the result does not depend on it). -/
theorem key_cache_ceiling (xxh3 : List Nat → Nat) (m : KeyMap) (key : List Nat)
    (others : List (List Nat)) :
    (key.length ≤ 64 →
      (get_unicode_key xxh3
          (run_lookups xxh3 ((get_unicode_key xxh3 m key).2) others) key).1
        = (get_unicode_key xxh3 m key).1)
    ∧ (key.length > 64 →
      (get_unicode_key xxh3 m key).1 = ⟨m.next_id, key⟩
      ∧ ((get_unicode_key xxh3 m key).2).table = m.table) := by
  constructor
  · intro hlen
    have h1 := get_unicode_key_self_find xxh3 m key hlen
    have h2 := run_lookups_find_stable xxh3 others
      ((get_unicode_key xxh3 m key).2) (xxh3 key) _ h1
    have h3 := get_unicode_key_found xxh3
      (run_lookups xxh3 ((get_unicode_key xxh3 m key).2) others) key hlen _ h2
    rw [h3]
  · intro hlen
    unfold get_unicode_key
    rw [if_pos hlen]
    exact ⟨rfl, rfl⟩

/-- Witness for C6: the key `[97]` resolves to its first handle after an
intervening lookup; the 65-byte key is interned fresh. -/
theorem key_cache_ceiling_witness :
    (get_unicode_key (fun k => k.length)
        (run_lookups (fun k => k.length)
          ((get_unicode_key (fun k => k.length) ⟨[], 0⟩ [97]).2) [[98, 99]]) [97]).1
      = (get_unicode_key (fun k => k.length) ⟨[], 0⟩ [97]).1
    ∧ (get_unicode_key (fun k => k.length) ⟨[], 0⟩ (List.replicate 65 97)).1
        = ⟨0, List.replicate 65 97⟩ :=
  ⟨(key_cache_ceiling (fun k => k.length) ⟨[], 0⟩ [97] [[98, 99]]).1 (by decide),
    ((key_cache_ceiling (fun k => k.length) ⟨[], 0⟩ (List.replicate 65 97) []).2
      (by decide)).1⟩

/-- **C9**: whenever the external parser rejects the input (and the parse
buffer was obtained), the decode call fails with a decode error carrying
exactly the parser's reported message and byte offset, and the parse buffer
is not released — the pool coming out of the call still owns the non-null
buffer pointer for reuse by the next call. -/
theorem deserialize_parse_error (alloc : Nat → Option Nat)
    (parse : List Nat → Except (String × Nat) YYVal)
    (b : ParseBuffer) (data : List Nat) (msg : String) (pos : Nat) (p : Nat)
    (hparse : parse data = .error (msg, pos))
    (halloc : (b.ensure_capacity alloc
        (buffer_capacity_to_allocate data.length)).1.1 = some p) :
    deserialize alloc parse b data
      = (.error ⟨msg, pos⟩,
         (b.ensure_capacity alloc (buffer_capacity_to_allocate data.length)).2)
    ∧ ((deserialize alloc parse b data).2).ptr = some p := by
  have hptr := ensure_capacity_ptr_eq b alloc (buffer_capacity_to_allocate data.length)
  rcases hec : b.ensure_capacity alloc (buffer_capacity_to_allocate data.length)
    with ⟨⟨optr, cap⟩, b2⟩
  rw [hec] at halloc hptr
  simp only at halloc hptr
  subst halloc
  have hd : deserialize alloc parse b data = (.error ⟨msg, pos⟩, b2) := by
    unfold deserialize
    rw [hec, hparse]
  refine ⟨?_, ?_⟩
  · rw [hd]
  · rw [hd]
    exact hptr

/-- Witness for C9 with a parser oracle rejecting the input at offset 5. -/
theorem deserialize_parse_error_witness :
    deserialize (fun n => some n) (fun _ => .error ("unexpected character", 5))
        ParseBuffer.new [123]
      = (.error ⟨"unexpected character", 5⟩,
         (ParseBuffer.new.ensure_capacity (fun n => some n)
            (buffer_capacity_to_allocate 1)).2) :=
  (deserialize_parse_error (fun n => some n)
    (fun _ => .error ("unexpected character", 5)) ParseBuffer.new [123]
    "unexpected character" 5 ((Nat.nextPowerOfTwo 4096).max 4096) rfl
    (by
      rw [show buffer_capacity_to_allocate ([123] : List Nat).length = 4096
        from by decide]
      simp [ParseBuffer.ensure_capacity, ParseBuffer.new])).1

set_option maxHeartbeats 1600000

/-- **C8**: `classify(value, flags)` tests the type identities in the fixed
fast-path order String, Int, Bool, None, Float, List, Dict, then Datetime
(only without datetime passthrough), then falls to the slow path testing, in
order, UUID, Tuple, Fragment-marker, then (unless datetime passthrough) Date
and Time, then (unless subclass passthrough) the string/int/list/dict
subclass flags, then the enum-marker subclass test, then (unless dataclass
passthrough) the dataclass-field-marker attribute, then (only with
numeric-array support) the array-library scalar and array tests, returning
the first matching tag and `Unknown` when nothing matches: the code
classifier coincides with first-match semantics over exactly that rule
order. -/
theorem classify_order :
    ∀ (t : TypeInfo) (o : Opt), pyobject_to_obtype t o = classify_spec t o := by
  intro t o
  obtain ⟨id, u, l, li, d, e, hd, ns, na⟩ := t
  obtain ⟨pd, ps, pdc, sn⟩ := o
  cases id <;>
    first
      | rfl
      | (cases pd <;>
          first
            | rfl
            | (cases ps <;> cases pdc <;> cases sn <;> cases u <;> cases l <;>
                cases li <;> cases d <;> cases e <;> cases hd <;> cases ns <;>
                cases na <;> rfl))

end HyperJson
